import Mathlib

/-!
# Verification of `google-calendar-cli`

Shallow embedding, in Lean 4, of the parts of the repository
`nitaiaharoni1/google-calendar-cli` that the specification's claims are
about, together with theorems settling those claims.

Conventions used throughout:

* Instants are represented as integers (minutes).  A timezone-aware
  Python `datetime` is represented by its UTC minute value; a fixed
  timezone offset is an integer number of minutes, and the local
  wall-clock value of an aware datetime under offset `off` is
  `utc + off`.
* A Python `(start, end)` datetime tuple becomes `Int × Int`.
* A Python function that can raise becomes a Lean function into
  `Except String _`, the string carrying the exception message.
-/

namespace GCalCli

/-! ## Busy-interval sorting and merging (`api.py`, `find_available_slots`)

`all_busy_periods.sort(key=lambda x: x[0])` sorts the collected busy
periods by their start.  We model the (stable) Python sort with
insertion sort under the relation "start is less than or equal". -/

/-- The sort key relation of `all_busy_periods.sort(key=lambda x: x[0])`:
compare intervals by their start. -/
def startLE (a b : Int × Int) : Prop :=
  a.1 ≤ b.1

instance : DecidableRel startLE := fun a b => Int.decLe a.1 b.1

instance : IsTotal (Int × Int) startLE :=
  ⟨fun a b => Int.le_total a.1 b.1⟩

instance : IsTrans (Int × Int) startLE :=
  ⟨fun _ _ _ h h' => le_trans h h'⟩

/-- `all_busy_periods.sort(key=lambda x: x[0])` (api.py line 566). -/
def sortByStart (l : List (Int × Int)) : List (Int × Int) :=
  List.insertionSort startLE l

/-- The merge loop of api.py lines 578–592: `current_start, current_end`
hold the interval being grown; an incoming interval whose start is at or
before `current_end` is folded in (`current_end = max(current_end, end)`),
otherwise the grown interval is emitted and a new one starts. -/
def mergeGo (cs ce : Int) : List (Int × Int) → List (Int × Int)
  | [] => [(cs, ce)]
  | (s, e) :: rest =>
      if s ≤ ce then
        mergeGo cs (max ce e) rest
      else
        (cs, ce) :: mergeGo s e rest

/-- The whole merge step of api.py lines 568–592: an empty input yields
`merged_busy = []`, otherwise the first interval seeds the loop. -/
def mergeBusy : List (Int × Int) → List (Int × Int)
  | [] => []
  | (s, e) :: rest => mergeGo s e rest

/-- api.py lines 565–592: sort the collected busy periods by start, then
merge overlapping or touching ones. -/
def mergedBusyPeriods (l : List (Int × Int)) : List (Int × Int) :=
  mergeBusy (sortByStart l)

/-- Membership of an instant in the union of half-open intervals
`[start, end)` of a list. -/
def inUnion (l : List (Int × Int)) (t : Int) : Prop :=
  ∃ p ∈ l, p.1 ≤ t ∧ t < p.2

instance (l : List (Int × Int)) (t : Int) : Decidable (inUnion l t) := by
  unfold inUnion; infer_instance

/-- Two successive merged intervals are separated by a positive gap:
the next one starts strictly after the current one ends. -/
def Separated (l : List (Int × Int)) : Prop :=
  List.Chain' (fun p q : Int × Int => p.2 < q.1) l

end GCalCli

namespace GCalCli

lemma mergeGo_head_start (cs ce : Int) (l : List (Int × Int)) :
    ∃ e' t, mergeGo cs ce l = (cs, e') :: t := by
  induction l generalizing cs ce with
  | nil => exact ⟨ce, [], rfl⟩
  | cons p rest ih =>
      obtain ⟨s, e⟩ := p
      by_cases h : s ≤ ce
      · simpa [mergeGo, h] using ih cs (max ce e)
      · exact ⟨ce, mergeGo s e rest, by simp [mergeGo, h]⟩

lemma mergeGo_separated (cs ce : Int) (l : List (Int × Int)) :
    Separated (mergeGo cs ce l) := by
  induction l generalizing cs ce with
  | nil => simp [mergeGo, Separated]
  | cons p rest ih =>
      obtain ⟨s, e⟩ := p
      by_cases h : s ≤ ce
      · simpa [mergeGo, h] using ih cs (max ce e)
      · obtain ⟨e', t, heq⟩ := mergeGo_head_start s e rest
        have hsep := ih s e
        rw [heq] at hsep
        simp only [mergeGo, h, if_false]
        rw [heq]
        exact List.Chain'.cons (by omega) hsep

theorem mergeBusy_separated (l : List (Int × Int)) :
    Separated (mergeBusy l) := by
  cases l with
  | nil => simp [mergeBusy, Separated]
  | cons p rest => exact mergeGo_separated p.1 p.2 rest

lemma mergeGo_union (cs ce : Int) (l : List (Int × Int))
    (hsort : l.Sorted startLE) (hcs : ∀ p ∈ l, cs ≤ p.1) (t : Int) :
    ((cs ≤ t ∧ t < ce) ∨ inUnion l t) ↔ inUnion (mergeGo cs ce l) t := by
  induction l generalizing cs ce with
  | nil => simp [mergeGo, inUnion]
  | cons p rest ih =>
      obtain ⟨s, e⟩ := p
      have hsort' : rest.Sorted startLE := hsort.of_cons
      have hs_rest : ∀ q ∈ rest, s ≤ q.1 := by
        intro q hq
        exact List.rel_of_sorted_cons hsort q hq
      have hcs_s : cs ≤ s := hcs (s, e) (List.mem_cons_self _ _)
      by_cases h : s ≤ ce
      · have hcs_rest : ∀ q ∈ rest, cs ≤ q.1 := fun q hq =>
          le_trans hcs_s (hs_rest q hq)
        have := ih cs (max ce e) hsort' hcs_rest
        simp only [mergeGo, h, if_true]
        rw [← this]
        constructor
        · rintro (⟨h1, h2⟩ | hu)
          · exact Or.inl ⟨h1, lt_of_lt_of_le h2 (le_max_left _ _)⟩
          · rcases hu with ⟨q, hq, hq1, hq2⟩
            rcases List.mem_cons.mp hq with rfl | hq'
            · exact Or.inl ⟨le_trans hcs_s hq1, lt_of_lt_of_le hq2 (le_max_right _ _)⟩
            · exact Or.inr ⟨q, hq', hq1, hq2⟩
        · rintro (⟨h1, h2⟩ | hu)
          · rcases lt_max_iff.mp h2 with h2' | h2'
            · exact Or.inl ⟨h1, h2'⟩
            · by_cases ht : t < ce
              · exact Or.inl ⟨h1, ht⟩
              · refine Or.inr ⟨(s, e), List.mem_cons_self _ _, ?_, h2'⟩
                exact le_trans h (le_of_not_lt ht)
          · exact Or.inr (by
              rcases hu with ⟨q, hq, hq1, hq2⟩
              exact ⟨q, List.mem_cons_of_mem _ hq, hq1, hq2⟩)
      · have := ih s e hsort' hs_rest
        simp only [mergeGo, h, if_false]
        constructor
        · rintro (⟨h1, h2⟩ | hu)
          · exact ⟨(cs, ce), List.mem_cons_self _ _, h1, h2⟩
          · rcases hu with ⟨q, hq, hq1, hq2⟩
            rcases List.mem_cons.mp hq with rfl | hq'
            · obtain ⟨q', hq', hm⟩ := this.mp (Or.inl ⟨hq1, hq2⟩)
              exact ⟨q', List.mem_cons_of_mem _ hq', hm⟩
            · obtain ⟨q', hq'', hm⟩ := this.mp (Or.inr ⟨q, hq', hq1, hq2⟩)
              exact ⟨q', List.mem_cons_of_mem _ hq'', hm⟩
        · rintro ⟨q, hq, hq1, hq2⟩
          rcases List.mem_cons.mp hq with rfl | hq'
          · exact Or.inl ⟨hq1, hq2⟩
          · rcases this.mpr ⟨q, hq', hq1, hq2⟩ with ⟨h1, h2⟩ | hu
            · exact Or.inr ⟨(s, e), List.mem_cons_self _ _, h1, h2⟩
            · rcases hu with ⟨q', hq'', hm1, hm2⟩
              exact Or.inr ⟨q', List.mem_cons_of_mem _ hq'', hm1, hm2⟩

theorem mergeBusy_union (l : List (Int × Int)) (hsort : l.Sorted startLE)
    (t : Int) : inUnion l t ↔ inUnion (mergeBusy l) t := by
  cases l with
  | nil => simp [mergeBusy]
  | cons p rest =>
      obtain ⟨s, e⟩ := p
      have hs_rest : ∀ q ∈ rest, s ≤ q.1 := fun q hq =>
        List.rel_of_sorted_cons hsort q hq
      have := mergeGo_union s e rest hsort.of_cons hs_rest t
      rw [mergeBusy, ← this]
      constructor
      · rintro ⟨q, hq, hq1, hq2⟩
        rcases List.mem_cons.mp hq with rfl | hq'
        · exact Or.inl ⟨hq1, hq2⟩
        · exact Or.inr ⟨q, hq', hq1, hq2⟩
      · rintro (⟨h1, h2⟩ | hu)
        · exact ⟨(s, e), List.mem_cons_self _ _, h1, h2⟩
        · rcases hu with ⟨q, hq, hq1, hq2⟩
          exact ⟨q, List.mem_cons_of_mem _ hq, hq1, hq2⟩

lemma inUnion_of_perm {l l' : List (Int × Int)} (h : l.Perm l') (t : Int) :
    inUnion l t ↔ inUnion l' t := by
  unfold inUnion
  constructor
  · rintro ⟨p, hp, hm⟩; exact ⟨p, h.mem_iff.mp hp, hm⟩
  · rintro ⟨p, hp, hm⟩; exact ⟨p, h.mem_iff.mpr hp, hm⟩

lemma sortByStart_sorted (l : List (Int × Int)) :
    (sortByStart l).Sorted startLE :=
  List.sorted_insertionSort startLE l

lemma sortByStart_perm (l : List (Int × Int)) :
    (sortByStart l).Perm l :=
  List.perm_insertionSort startLE l

lemma perm_sorted_example (m : List (Int × Int))
    (h : m.Perm [(540, 600), (570, 660), (780, 840)])
    (hs : m.Sorted startLE) : m = [(540, 600), (570, 660), (780, 840)] := by
  have hlen : m.length = 3 := h.length_eq
  obtain ⟨x, y, z, rfl⟩ : ∃ x y z, m = [x, y, z] := by
    cases m with
    | nil => simp at hlen
    | cons x t =>
        cases t with
        | nil => simp at hlen
        | cons y t2 =>
            cases t2 with
            | nil => simp at hlen
            | cons z t3 =>
                cases t3 with
                | nil => exact ⟨x, y, z, rfl⟩
                | cons w t4 =>
                    simp only [List.length_cons, List.length_nil] at hlen
                    omega
  have hx : x ∈ [((540 : Int), (600 : Int)), (570, 660), (780, 840)] :=
    h.subset (by simp)
  have hy : y ∈ [((540 : Int), (600 : Int)), (570, 660), (780, 840)] :=
    h.subset (by simp)
  have hz : z ∈ [((540 : Int), (600 : Int)), (570, 660), (780, 840)] :=
    h.subset (by simp)
  have hxy : startLE x y := List.rel_of_sorted_cons hs y (by simp)
  have hyz : startLE y z := List.rel_of_sorted_cons hs.of_cons z (by simp)
  simp only [List.mem_cons, List.not_mem_nil, or_false] at hx hy hz
  rcases hx with rfl | rfl | rfl <;> rcases hy with rfl | rfl | rfl <;>
    rcases hz with rfl | rfl | rfl <;>
    first
      | rfl
      | exact absurd h (by decide)
      | exact absurd hxy (by decide)
      | exact absurd hyz (by decide)

/-- C1: after sorting the collected busy intervals by start and merging,
the result is the minimal set of disjoint busy ranges — successive merged
intervals are strictly separated, and an instant is busy in the merged
list exactly when it is busy in some input interval; in particular every
input holding exactly the intervals `[9:00,10:00)`, `[9:30,11:00)`,
`[13:00,14:00)` of one day (in minutes of that day: `(540,600)`,
`(570,660)`, `(780,840)`) merges to exactly `[9:00,11:00)` and
`[13:00,14:00)`. -/
theorem C1_busy_merge_minimal_disjoint :
    (∀ l, Separated (mergedBusyPeriods l)) ∧
    (∀ l t, inUnion l t ↔ inUnion (mergedBusyPeriods l) t) ∧
    (∀ l, l.Perm [(540, 600), (570, 660), (780, 840)] →
      mergedBusyPeriods l = [(540, 660), (780, 840)]) := by
  refine ⟨fun l => mergeBusy_separated (sortByStart l), fun l t => ?_, fun l h => ?_⟩
  · exact (inUnion_of_perm (sortByStart_perm l) t).symm.trans
      (mergeBusy_union _ (sortByStart_sorted l) t)
  · have hperm : (sortByStart l).Perm [(540, 600), (570, 660), (780, 840)] :=
      (sortByStart_perm l).trans h
    have heq := perm_sorted_example (sortByStart l) hperm (sortByStart_sorted l)
    unfold mergedBusyPeriods
    rw [heq]
    decide

/-- Witness for C1: the concrete merge of a permuted example input, and
the union-preservation statement at a concrete instant. -/
theorem C1_busy_merge_minimal_disjoint_witness :
    mergedBusyPeriods [(780, 840), (570, 660), (540, 600)] =
      [(540, 660), (780, 840)] ∧
    (inUnion [(780, 840), (570, 660), (540, 600)] 650 ↔
      inUnion (mergedBusyPeriods [(780, 840), (570, 660), (540, 600)]) 650) :=
  ⟨C1_busy_merge_minimal_disjoint.2.2 _ (by decide),
   C1_busy_merge_minimal_disjoint.2.1 _ 650⟩

/-! ## Slot generation (`api.py`, `find_available_slots`, lines 594–679)

The remote free/busy response is modelled by the list `busy` of already
parsed timezone-aware UTC intervals (api.py lines 539–563 parse the
server's `Z`-suffixed ISO strings into aware datetimes).  The IANA zone
database behind `zoneinfo.ZoneInfo` is modelled by a lookup
`zones : String → Option Int` giving a fixed offset in minutes for each
recognised zone name (`none` for an unrecognised name, where
`ZoneInfo(timezone)` raises).

Crucially, inside `find_available_slots` the parameter `timezone : str`
shadows the module-level `from datetime import timezone` import, so every
evaluation of `timezone.utc` in the function body (lines 602, 606, 608,
610, 612, 644, 645, 652, 654) is an attribute lookup on a string and
raises `AttributeError: 'str' object has no attribute 'utc'`.  The body
is therefore parametrised by `utcAttr`, the evaluator of the expression
`timezone.utc`: the faithful instantiation always raises, while the
repaired instantiation (what the code plainly intends, `datetime
.timezone.utc`) returns the UTC tzinfo, i.e. offset `0`. -/

/-- Evaluation of `timezone.utc` as the source actually has it: an
attribute lookup on the `str` parameter, which raises. -/
def shadowedUtc (_ : String) : Except String Int :=
  Except.error "'str' object has no attribute 'utc'"

/-- Evaluation of `timezone.utc` as plainly intended: the UTC tzinfo,
a fixed offset of `0` minutes. -/
def intendedUtc (_ : String) : Except String Int :=
  Except.ok 0

/-- The context threaded through the generation loops of api.py
lines 618–671. -/
structure SlotCtx where
  whStart : Int
  whEnd : Int
  duration : Int
  tzOff : Int
  timeMin : Int
  timeMax : Int
  timeMinLocal : Int
  timeMaxLocal : Int
  excludeWeekends : Bool
  merged : List (Int × Int)
deriving Repr

/-- api.py lines 647–663: a candidate slot (given in UTC minutes) is free
when it overlaps no merged busy interval (open-interval test, line 657)
and lies within the UTC search window (line 662). -/
def slotIsFree (c : SlotCtx) (slotStartUtc slotEndUtc : Int) : Bool :=
  (c.merged.all fun b =>
      decide (slotEndUtc ≤ b.1) || decide (slotStartUtc ≥ b.2)) &&
  !(decide (slotStartUtc < c.timeMin) || decide (slotEndUtc > c.timeMax))

/-- api.py lines 639–669: the inner `while slot_start + duration_delta
<= day_end` loop.  `slotStart` is a local wall-clock minute; converting
back to UTC (`slot_start.astimezone(timezone.utc)`, lines 644–645, with
the repaired tzinfo) subtracts the zone offset.  The loop advances by the
full duration each step; the `fuel` argument is an upper bound on the
iteration count, exact whenever `duration ≥ 1`. -/
def genSlots (c : SlotCtx) (dayEnd : Int) : Nat → Int → List (Int × Int)
  | 0, _ => []
  | fuel + 1, slotStart =>
      if slotStart + c.duration ≤ dayEnd then
        let slotStartUtc := slotStart - c.tzOff
        let slotEndUtc := slotStart + c.duration - c.tzOff
        (if slotIsFree c slotStartUtc slotEndUtc then
            [(slotStartUtc, slotEndUtc)]
          else []) ++
          genSlots c dayEnd fuel (slotStart + c.duration)
      else []

/-- api.py lines 622–671: the `while current_date <= end_date` day loop.
Dates are days since the epoch; `(d + 3) % 7` is Python's
`date.weekday()` (Monday = 0, and day 0 = 1970-01-01 is a Thursday).
Line 629 combines the date with `working_hours_start:00` local wall
time, line 630 likewise for the end; lines 633–636 clip to the local
search window. -/
def genDays (c : SlotCtx) (endDate : Int) : Nat → Int → List (Int × Int)
  | 0, _ => []
  | fuel + 1, currentDate =>
      if currentDate ≤ endDate then
        if c.excludeWeekends && decide ((currentDate + 3).emod 7 ≥ 5) then
          genDays c endDate fuel (currentDate + 1)
        else
          let dayStart0 := currentDate * 1440 + c.whStart * 60
          let dayEnd0 := currentDate * 1440 + c.whEnd * 60
          let dayStart := if dayStart0 < c.timeMinLocal then c.timeMinLocal else dayStart0
          let dayEnd := if dayEnd0 > c.timeMaxLocal then c.timeMaxLocal else dayEnd0
          genSlots c dayEnd ((dayEnd - dayStart).toNat + 1) dayStart ++
            genDays c endDate fuel (currentDate + 1)
      else []

/-- The body of `find_available_slots` from the merge step on (api.py
lines 565–676), parametrised by the evaluator of `timezone.utc`.
`timeMin`/`timeMax` are aware UTC instants, so the conversions at lines
605–612 leave their value unchanged — but they still evaluate
`timezone.utc`, which is what `utcAttr` models.  The resolved zone is
only a fixed offset, so `astimezone(tz)` at lines 615–616 adds it. -/
def findSlotsBody (utcAttr : String → Except String Int)
    (zones : String → Option Int) (busy : List (Int × Int))
    (durationMinutes : Int) (timeMin timeMax : Int)
    (workingHoursStart workingHoursEnd : Int) (excludeWeekends : Bool)
    (timezone : String) : Except String (List (Int × Int)) := do
  let merged := mergeBusy (sortByStart busy)
  -- lines 599–602: `tz = ZoneInfo(timezone)`, and on failure the handler
  -- itself evaluates `timezone.utc`
  let tzOff ← match zones timezone with
    | some off => pure off
    | none => utcAttr timezone
  -- lines 605–608: both branches evaluate `timezone.utc`
  let _ ← utcAttr timezone
  -- lines 609–612: likewise for `time_max`
  let _ ← utcAttr timezone
  let timeMinLocal := timeMin + tzOff
  let timeMaxLocal := timeMax + tzOff
  let currentDate := timeMinLocal.fdiv 1440
  let endDate := timeMaxLocal.fdiv 1440
  let c : SlotCtx :=
    { whStart := workingHoursStart, whEnd := workingHoursEnd,
      duration := durationMinutes, tzOff := tzOff,
      timeMin := timeMin, timeMax := timeMax,
      timeMinLocal := timeMinLocal, timeMaxLocal := timeMaxLocal,
      excludeWeekends := excludeWeekends, merged := merged }
  let slots := genDays c endDate ((endDate + 1 - currentDate).toNat) currentDate
  pure (List.insertionSort startLE slots)

/-- `find_available_slots` (api.py lines 503–679) as the source has it:
the whole body sits in a `try` whose handler re-raises any exception as
`Exception("Failed to find available slots: ...")` (line 679), and the
`timezone.utc` lookups hit the shadowed string parameter. -/
def find_available_slots (zones : String → Option Int)
    (busy : List (Int × Int)) (durationMinutes : Int)
    (timeMin timeMax : Int) (workingHoursStart workingHoursEnd : Int)
    (excludeWeekends : Bool) (timezone : String) :
    Except String (List (Int × Int)) :=
  match findSlotsBody shadowedUtc zones busy durationMinutes timeMin timeMax
      workingHoursStart workingHoursEnd excludeWeekends timezone with
  | Except.ok v => Except.ok v
  | Except.error e => Except.error ("Failed to find available slots: " ++ e)

/-- `find_available_slots` with the one shadowing slip repaired:
`timezone.utc` evaluates to the UTC tzinfo.  This is the behavior the
source's own docstring and the spec describe. -/
def find_available_slots_repaired (zones : String → Option Int)
    (busy : List (Int × Int)) (durationMinutes : Int)
    (timeMin timeMax : Int) (workingHoursStart workingHoursEnd : Int)
    (excludeWeekends : Bool) (timezone : String) :
    Except String (List (Int × Int)) :=
  match findSlotsBody intendedUtc zones busy durationMinutes timeMin timeMax
      workingHoursStart workingHoursEnd excludeWeekends timezone with
  | Except.ok v => Except.ok v
  | Except.error e => Except.error ("Failed to find available slots: " ++ e)

/-- A small zone database for the concrete scenarios: UTC and one fixed
positive-offset zone. -/
def demoZones : String → Option Int
  | "UTC" => some 0
  | "Etc/GMT-2" => some 120
  | _ => none

/-- The slot list a result carries (`[]` for a raised exception). -/
def okSlots : Except String (List (Int × Int)) → List (Int × Int)
  | Except.ok l => l
  | Except.error _ => []

/-- C2: the claim reads the overlap test of api.py lines 647–663 as the
free/busy classification of returned slots.  The predicate itself
(`slotIsFree`) is exactly the claimed one — first conjunct — but the
classification is never exercised: `find_available_slots` raises before
reaching it because the parameter `timezone : str` shadows
`datetime.timezone` (second conjunct, at the claim's own scenario).
Under the one-line repair of that slip, the claimed concrete
consequences do hold: the candidate slot `[10:00,10:30)` of the Monday
1970-01-05 (UTC minutes `(6360, 6390)`) is excluded when the busy
interval is `[10:15,10:45)` = `(6375, 6405)` and included when it is
`[10:30,11:00)` = `(6390, 6420)`. -/
theorem C2_slot_free_classification :
    (∀ c su eu, slotIsFree c su eu = true ↔
        ((∀ b ∈ c.merged, eu ≤ b.1 ∨ b.2 ≤ su) ∧
          c.timeMin ≤ su ∧ eu ≤ c.timeMax)) ∧
    find_available_slots demoZones [(6375, 6405)] 30 5760 7200 9 18 true "UTC" =
      Except.error
        "Failed to find available slots: 'str' object has no attribute 'utc'" ∧
    (6360, 6390) ∉ okSlots (find_available_slots_repaired demoZones
      [(6375, 6405)] 30 5760 7200 9 18 true "UTC") ∧
    (6360, 6390) ∈ okSlots (find_available_slots_repaired demoZones
      [(6390, 6420)] 30 5760 7200 9 18 true "UTC") := by
  have hA : find_available_slots_repaired demoZones
      [(6375, 6405)] 30 5760 7200 9 18 true "UTC" = Except.ok
      [(6300, 6330), (6330, 6360), (6420, 6450), (6450, 6480), (6480, 6510),
       (6510, 6540), (6540, 6570), (6570, 6600), (6600, 6630), (6630, 6660),
       (6660, 6690), (6690, 6720), (6720, 6750), (6750, 6780), (6780, 6810),
       (6810, 6840)] := by rfl
  have hB : find_available_slots_repaired demoZones
      [(6390, 6420)] 30 5760 7200 9 18 true "UTC" = Except.ok
      [(6300, 6330), (6330, 6360), (6360, 6390), (6420, 6450), (6450, 6480),
       (6480, 6510), (6510, 6540), (6540, 6570), (6570, 6600), (6600, 6630),
       (6630, 6660), (6660, 6690), (6690, 6720), (6720, 6750), (6750, 6780),
       (6780, 6810), (6810, 6840)] := by rfl
  refine ⟨fun c su eu => ?_, by rfl, by rw [hA]; decide, by rw [hB]; decide⟩
  simp only [slotIsFree, Bool.and_eq_true, List.all_eq_true, Bool.or_eq_true,
    decide_eq_true_eq, Bool.not_eq_true', Bool.or_eq_false_iff,
    decide_eq_false_iff_not, not_lt, ge_iff_le]

/-- C3: the claim describes the slots returned for a Saturday-to-Monday
window with working hours 9–18, 30-minute slots, no busy time and
weekends excluded.  The code raises instead (first conjunct — the
`timezone.utc` shadowing again), so it returns no slots at all; the
remaining conjuncts show the claimed properties hold once the slip is
repaired, on the window 1970-01-03 00:00 UTC (minute 2880, a Saturday)
to 1970-01-06 00:00 UTC (minute 7200): the 18 returned slots all lie on
Monday 1970-01-05 (day 4, local weekday index < 5), the first starts at
09:00 local, each next slot starts where the previous ends, every slot
is 30 minutes, and the last ends at (hence at or before) 18:00 local. -/
theorem C3_slot_generation_boundaries :
    find_available_slots demoZones [] 30 2880 7200 9 18 true "UTC" =
      Except.error
        "Failed to find available slots: 'str' object has no attribute 'utc'" ∧
    find_available_slots_repaired demoZones [] 30 2880 7200 9 18 true "UTC" =
      Except.ok
      [(6300, 6330), (6330, 6360), (6360, 6390), (6390, 6420), (6420, 6450),
       (6450, 6480), (6480, 6510), (6510, 6540), (6540, 6570), (6570, 6600),
       (6600, 6630), (6630, 6660), (6660, 6690), (6690, 6720), (6720, 6750),
       (6750, 6780), (6780, 6810), (6810, 6840)] ∧
    (∀ s ∈ okSlots (find_available_slots_repaired demoZones [] 30 2880 7200
        9 18 true "UTC"), s.1.fdiv 1440 = 4 ∧ (s.1.fdiv 1440 + 3).emod 7 < 5) ∧
    (okSlots (find_available_slots_repaired demoZones [] 30 2880 7200
        9 18 true "UTC")).head? = some (4 * 1440 + 9 * 60, 4 * 1440 + 9 * 60 + 30) ∧
    List.Chain' (fun p q : Int × Int => q.1 = p.2)
      (okSlots (find_available_slots_repaired demoZones [] 30 2880 7200
        9 18 true "UTC")) ∧
    (∀ s ∈ okSlots (find_available_slots_repaired demoZones [] 30 2880 7200
        9 18 true "UTC"), s.2 - s.1 = 30 ∧ s.2 ≤ 4 * 1440 + 18 * 60) := by
  have h2 : find_available_slots_repaired demoZones [] 30 2880 7200 9 18 true
      "UTC" = Except.ok
      [(6300, 6330), (6330, 6360), (6360, 6390), (6390, 6420), (6420, 6450),
       (6450, 6480), (6480, 6510), (6510, 6540), (6540, 6570), (6570, 6600),
       (6600, 6630), (6630, 6660), (6660, 6690), (6690, 6720), (6720, 6750),
       (6750, 6780), (6780, 6810), (6810, 6840)] := by rfl
  refine ⟨by rfl, h2, ?_, ?_, ?_, ?_⟩
  · rw [h2]; decide
  · rw [h2]; rfl
  · rw [h2]
    simp only [okSlots]
    norm_num [List.chain'_cons, List.chain'_singleton]
  · rw [h2]; decide

/-- C4: the claim says an invalid timezone name makes the algorithm fall
back to UTC and still complete normally.  In the source the fallback
`tz = timezone.utc` (api.py line 602) — like every other `timezone.utc`
in the function — reads the attribute `utc` off the shadowing *string*
parameter `timezone`, so the call raises
`Failed to find available slots: 'str' object has no attribute 'utc'`
instead; indeed every call raises it, whatever the timezone name. -/
theorem C4_invalid_timezone_raises (zones : String → Option Int)
    (busy : List (Int × Int)) (dur tmin tmax whs whe : Int)
    (exw : Bool) (tzName : String) :
    find_available_slots zones busy dur tmin tmax whs whe exw tzName =
      Except.error
        "Failed to find available slots: 'str' object has no attribute 'utc'" := by
  unfold find_available_slots findSlotsBody shadowedUtc
  cases zones tzName <;> rfl

/-! ## Retry with exponential backoff (`retry.py`) -/

/-- A raised Python exception as `is_retryable_error` inspects it:
either an `HttpError` carrying a response status (`error.resp.status`),
or any other exception, of which only the message text (`str(error)`)
matters. -/
structure PyErr where
  isHttpError : Bool
  status : Nat
  msg : String
deriving Repr, DecidableEq

/-- retry.py line 13. -/
def RETRYABLE_STATUS_CODES : List Nat := [500, 502, 503, 504]

/-- retry.py line 25. -/
def transientKeywords : List String :=
  ["timeout", "connection", "network", "temporary", "retry"]

/-- `is_retryable_error` (retry.py lines 19–26): an `HttpError` is
retryable iff its status is one of the retryable codes; any other
error is retryable iff its lowercased message contains one of the
transient keywords as a substring. -/
def is_retryable_error (e : PyErr) : Bool :=
  if e.isHttpError then
    RETRYABLE_STATUS_CODES.contains e.status
  else
    transientKeywords.any fun kw =>
      decide (kw.toList <:+: e.msg.toLower.toList)

/-- The `for attempt in range(max_retries + 1)` loop of `with_retry`
(retry.py lines 43–69), from attempt `attempt` on, with `left` attempts
still allowed after this one (`left = max_retries - attempt`).  The
wrapped function is modelled by the outcome of its `k`-th invocation,
`f k`.  Returns the final outcome, the number of invocations made, and
the delays slept, in order.  When `left = 0` the loop breaks on failure
(line 51) and re-raises the last exception (line 69) without consulting
retryability; otherwise a non-retryable failure is re-raised at once
(line 55) and a retryable one sleeps `initial_delay * backoff_factor **
attempt` (lines 58, 65) before the next attempt. -/
def retryGo {α : Type} (f : Nat → Except PyErr α)
    (backoffFactor initialDelay : Nat) (attempt : Nat) :
    Nat → Except PyErr α × Nat × List Nat
  | 0 =>
      match f attempt with
      | Except.ok a => (Except.ok a, 1, [])
      | Except.error e => (Except.error e, 1, [])
  | left + 1 =>
      match f attempt with
      | Except.ok a => (Except.ok a, 1, [])
      | Except.error e =>
          if is_retryable_error e then
            let delay := initialDelay * backoffFactor ^ attempt
            let r := retryGo f backoffFactor initialDelay (attempt + 1) left
            (r.1, r.2.1 + 1, delay :: r.2.2)
          else
            (Except.error e, 1, [])

/-- One invocation of a function wrapped by
`with_retry(max_retries, backoff_factor, initial_delay)`
(retry.py lines 29–72). -/
def with_retry {α : Type} (maxRetries backoffFactor initialDelay : Nat)
    (f : Nat → Except PyErr α) : Except PyErr α × Nat × List Nat :=
  retryGo f backoffFactor initialDelay 0 maxRetries

/-- C5: with `initial_delay = 1`, `backoff_factor = 2`,
`max_retries = 3`: if every invocation fails with a retryable error,
the wrapped function is invoked exactly 4 times, the slept delays are
exactly 1, 2, 4 in order, and the last invocation's error propagates
unchanged; and if the `k`-th invocation (`k ≤ 3`) fails with a
non-retryable error, earlier invocations having failed retryably, that
error propagates at once: exactly `k + 1` invocations, no further
sleep (only the `k` earlier delays `2^0 … 2^(k-1)`). -/
theorem C5_retry_backoff_schedule :
    (∀ (α : Type) (f : Nat → Except PyErr α) (e : Nat → PyErr),
      (∀ k, k ≤ 3 → f k = Except.error (e k)) →
      (∀ k, k ≤ 3 → is_retryable_error (e k) = true) →
      with_retry 3 2 1 f = (Except.error (e 3), 4, [1, 2, 4])) ∧
    (∀ (α : Type) (f : Nat → Except PyErr α) (e : PyErr) (k : Nat),
      k ≤ 3 → f k = Except.error e → is_retryable_error e = false →
      (∀ j, j < k → ∃ ej, f j = Except.error ej ∧
        is_retryable_error ej = true) →
      with_retry 3 2 1 f =
        (Except.error e, k + 1, (List.range k).map fun j => 2 ^ j)) := by
  constructor
  · intro α f e hf hr
    have h0 := hf 0 (by omega)
    have h1 := hf 1 (by omega)
    have h2 := hf 2 (by omega)
    have h3 := hf 3 (by omega)
    have r0 := hr 0 (by omega)
    have r1 := hr 1 (by omega)
    have r2 := hr 2 (by omega)
    simp [with_retry, retryGo, h0, h1, h2, h3, r0, r1, r2]
  · intro α f e k hk hf hnr hpre
    interval_cases k
    · simp [with_retry, retryGo, hf, hnr]
    · obtain ⟨e0, hf0, hr0⟩ := hpre 0 (by omega)
      simp [with_retry, retryGo, hf0, hr0, hf, hnr, List.range_succ]
    · obtain ⟨e0, hf0, hr0⟩ := hpre 0 (by omega)
      obtain ⟨e1, hf1, hr1⟩ := hpre 1 (by omega)
      simp [with_retry, retryGo, hf0, hr0, hf1, hr1, hf, hnr, List.range_succ]
    · obtain ⟨e0, hf0, hr0⟩ := hpre 0 (by omega)
      obtain ⟨e1, hf1, hr1⟩ := hpre 1 (by omega)
      obtain ⟨e2, hf2, hr2⟩ := hpre 2 (by omega)
      simp [with_retry, retryGo, hf0, hr0, hf1, hr1, hf2, hr2, hf,
        List.range_succ]

/-- Witness for C5: a call that always fails with HTTP 503 is invoked
4 times with delays 1, 2, 4; a call failing with HTTP 503 and then
HTTP 404 stops right after the 404, having slept once. -/
theorem C5_retry_backoff_schedule_witness :
    with_retry 3 2 1 (fun _ =>
        (Except.error ⟨true, 503, "Service Unavailable"⟩ : Except PyErr Unit)) =
      (Except.error ⟨true, 503, "Service Unavailable"⟩, 4, [1, 2, 4]) ∧
    with_retry 3 2 1 (fun k =>
        (Except.error (if k = 0 then ⟨true, 503, "Service Unavailable"⟩
          else ⟨true, 404, "not found"⟩) : Except PyErr Unit)) =
      (Except.error ⟨true, 404, "not found"⟩, 2, [1]) := by
  constructor
  · exact C5_retry_backoff_schedule.1 Unit _
      (fun _ => ⟨true, 503, "Service Unavailable"⟩)
      (fun k _ => rfl) (fun k _ => rfl)
  · have := C5_retry_backoff_schedule.2 Unit
      (fun k => (Except.error (if k = 0 then ⟨true, 503, "Service Unavailable"⟩
        else ⟨true, 404, "not found"⟩) : Except PyErr Unit))
      ⟨true, 404, "not found"⟩ 1 (by omega) rfl (by decide)
      (fun j hj => ⟨⟨true, 503, "Service Unavailable"⟩, by
        have : j = 0 := by omega
        subst this
        exact ⟨rfl, by decide⟩⟩)
    simpa using this

/-! ## Partial update of an event (`api.py`, `update_event`, lines 230–372) -/

/-- The `start`/`end` payload of an event body:
`{"dateTime": ..., "timeZone": ...}`.  The `timeZone` key can be absent
from a fetched event, hence the option. -/
structure EventTime where
  dateTime : String
  timeZone : Option String
deriving Repr, DecidableEq

/-- One attendee entry of an event body.  A fetched event's entries can
carry keys beyond `email` (response status and the like); `extra`
stands for those.  `update_event` rebuilds entries as `{"email": ...}`
only. -/
structure Attendee where
  email : String
  extra : List (String × String)
deriving Repr, DecidableEq

/-- The keys of an event body that `update_event` reads or writes; a
`none` field is an absent key.  `endTime` is the dict key `"end"` (a
Lean keyword).  `reminders` and `conferenceData` are carried opaque, as
their JSON text. -/
structure Event where
  summary : Option String
  start : Option EventTime
  endTime : Option EventTime
  description : Option String
  location : Option String
  attendees : Option (List Attendee)
  recurrence : Option (List String)
  reminders : Option String
  colorId : Option String
  conferenceData : Option String
deriving Repr, DecidableEq

/-- A `start_time`/`end_time` argument of `update_event`: either an
already-constructed `datetime` (modelled by its `isoformat()`
rendering, api.py line 296) or free text to be parsed (line 300). -/
inductive TimeArg
  | dt (isoformat : String)
  | text (raw : String)
deriving Repr, DecidableEq

/-- Python truthiness of an optional string argument (`if summary:`
style tests): `None` and `""` are both falsy. -/
def truthyStr : Option String → Bool
  | none => false
  | some s => s != ""

/-- The field-merge step of `update_event` (api.py lines 282–353): the
previously fetched event, updated in place, only explicitly provided
arguments changing it; the result is the body submitted to the server.
`parse` stands for `utils.parse_datetime` (dateutil text parsing,
`None` on failure) and `uuid` for the fresh `uuid.uuid4()` rendering
the Meet request uses.  The fifteen arguments follow the source's
parameter list. -/
def update_event_merge (event : Event) (parse : String → Option String)
    (uuid : String) (summary : Option String)
    (startTime endTime : Option TimeArg)
    (description location : Option String)
    (attendees : Option (List String)) (recurrence : Option (List String))
    (reminders : Option String) (timezone : Option String)
    (colorId : Option String) (addMeet removeMeet : Bool) : Event :=
  -- lines 286–287: `if not timezone: timezone = event.get("start", {})
  -- .get("timeZone", "UTC")` — truthiness, so `""` also falls back
  let tzEff : String :=
    if truthyStr timezone then timezone.getD "UTC"
    else (event.start.bind EventTime.timeZone).getD "UTC"
  -- line 290: `if summary:` — `None` and `""` both leave it unchanged
  let event := if truthyStr summary then { event with summary := summary }
    else event
  -- lines 293–305: `if start_time:` — a datetime value is rendered with
  -- `isoformat()`; free text goes through `parse_datetime` and is
  -- dropped when unparsable
  let event :=
    match startTime with
    | some (TimeArg.dt iso) =>
        { event with start := some ⟨iso, some tzEff⟩ }
    | some (TimeArg.text s) =>
        if s != "" then
          match parse s with
          | some iso => { event with start := some ⟨iso, some tzEff⟩ }
          | none => event
        else event
    | none => event
  -- lines 307–319: likewise for `end_time`
  let event :=
    match endTime with
    | some (TimeArg.dt iso) =>
        { event with endTime := some ⟨iso, some tzEff⟩ }
    | some (TimeArg.text s) =>
        if s != "" then
          match parse s with
          | some iso => { event with endTime := some ⟨iso, some tzEff⟩ }
          | none => event
        else event
    | none => event
  -- lines 321–322: `if description is not None:` — `""` does set it
  let event := match description with
    | some d => { event with description := some d }
    | none => event
  -- lines 324–325
  let event := match location with
    | some v => { event with location := some v }
    | none => event
  -- lines 327–328: `[{"email": email} for email in attendees] if
  -- attendees else []` — rebuilt email-only entries, `[]` for `[]`
  let event := match attendees with
    | some emails =>
        { event with attendees := some (emails.map fun e => ⟨e, []⟩) }
    | none => event
  -- lines 330–331: a provided recurrence list is stored as passed (the
  -- non-list branch wraps a scalar, which this model's list-typed
  -- argument never is; `[]` falls through `if recurrence else []` to `[]`)
  let event := match recurrence with
    | some r => { event with recurrence := some r }
    | none => event
  -- lines 333–334
  let event := match reminders with
    | some r => { event with reminders := some r }
    | none => event
  -- lines 336–340: `""` pops the key entirely, any other value sets it
  let event := match colorId with
    | some c =>
        if c == "" then { event with colorId := none }
        else { event with colorId := some c }
    | none => event
  -- lines 343–353: `remove_meet` strips conference data and takes
  -- precedence over `add_meet`, which installs a fresh `createRequest`
  let event :=
    if removeMeet then { event with conferenceData := none }
    else if addMeet then
      { event with conferenceData := some ("createRequest:" ++ uuid) }
    else event
  event

/-- C6: `update_event` merges only explicitly provided fields into the
fetched event: a description-only update leaves summary, start, end and
attendees exactly as fetched while setting the description; an
explicitly empty attendee list sets the attendee list to empty; an
empty-string color id removes the `colorId` key entirely, while an
absent color id leaves it unchanged. -/
theorem C6_update_event_partial_merge :
    (∀ event parse uuid d,
      (update_event_merge event parse uuid none none none (some d) none
          none none none none none false false).summary = event.summary ∧
      (update_event_merge event parse uuid none none none (some d) none
          none none none none none false false).start = event.start ∧
      (update_event_merge event parse uuid none none none (some d) none
          none none none none none false false).endTime = event.endTime ∧
      (update_event_merge event parse uuid none none none (some d) none
          none none none none none false false).attendees = event.attendees ∧
      (update_event_merge event parse uuid none none none (some d) none
          none none none none none false false).description = some d) ∧
    (∀ event parse uuid,
      (update_event_merge event parse uuid none none none none none
          (some []) none none none none false false).attendees = some []) ∧
    (∀ event parse uuid,
      (update_event_merge event parse uuid none none none none none none
          none none none (some "") false false).colorId = none) ∧
    (∀ event parse uuid,
      (update_event_merge event parse uuid none none none none none none
          none none none none false false).colorId = event.colorId) := by
  refine ⟨fun event parse uuid d => ?_, fun event parse uuid => ?_,
    fun event parse uuid => ?_, fun event parse uuid => ?_⟩ <;>
    simp [update_event_merge, truthyStr]

/-! ## Operation history (`history.py`) -/

/-- history.py line 11. -/
def MAX_HISTORY_ENTRIES : Nat := 100

/-- One history entry as `add_operation` records it (history.py lines
41–47).  `details` carries the operation's detail map opaque, as its
JSON text; the timestamp (`datetime.utcnow().isoformat()`) comes from
the caller's clock. -/
structure Operation where
  timestamp : String
  type : String
  details : String
  undoable : Bool
  undo_func : Option String
deriving Repr, DecidableEq

/-- `add_operation` (history.py lines 26–58): append the new entry to
the stored operation list, then keep only the last
`MAX_HISTORY_ENTRIES` when the list has grown past the cap
(`history["operations"][-MAX_HISTORY_ENTRIES:]`, line 53).  `now` is
the clock reading used for the timestamp. -/
def add_operation (ops : List Operation) (now : String)
    (operation_type : String) (details : String) (undoable : Bool)
    (undo_func : Option String) : List Operation :=
  let operation : Operation := ⟨now, operation_type, details, undoable, undo_func⟩
  let ops := ops ++ [operation]
  if MAX_HISTORY_ENTRIES < ops.length then
    ops.drop (ops.length - MAX_HISTORY_ENTRIES)
  else ops

/-- `get_last_undoable_operation` (history.py lines 72–86): scan the
stored operations from most recent to oldest and return the first
whose `undoable` flag is set, `None` when there is none. -/
def get_last_undoable_operation (ops : List Operation) : Option Operation :=
  ops.reverse.find? (·.undoable)

set_option maxRecDepth 20000 in
/-- C7: the history never holds more than 100 entries — after any
`add_operation` the stored list has at most `MAX_HISTORY_ENTRIES`
entries and equals the just-extended list with its oldest entries
dropped (so the survivors are the most recent ones, in order);
appending 105 operations to an empty history leaves exactly the 6th
through the 105th, in original order. -/
theorem C7_history_capped :
    (∀ ops now ty det u uf,
      (add_operation ops now ty det u uf).length ≤ MAX_HISTORY_ENTRIES ∧
      add_operation ops now ty det u uf =
        (ops ++ [Operation.mk now ty det u uf]).drop
          (ops.length + 1 - MAX_HISTORY_ENTRIES)) ∧
    (List.range 105).foldl
        (fun acc i => add_operation acc (toString i) "create" "" true none)
        [] =
      (List.range' 5 100).map
        (fun i => Operation.mk (toString i) "create" "" true none) := by
  refine ⟨fun ops now ty det u uf => ?_, by decide⟩
  simp only [add_operation, MAX_HISTORY_ENTRIES]
  split_ifs with h
  · refine ⟨?_, by simp⟩
    simp only [List.length_drop, List.length_append, List.length_singleton]
    omega
  · simp only [List.length_append, List.length_singleton, not_lt] at h
    refine ⟨by simpa using h, ?_⟩
    rw [show ops.length + 1 - 100 = 0 by omega, List.drop_zero]

/-- C8: `get_last_undoable_operation` returns the most recent entry
whose undoable flag is set — entries recorded after it may all be
non-undoable — and `None` when no stored entry is undoable. -/
theorem C8_last_undoable :
    (∀ (ops pre : List Operation) (op : Operation) (post : List Operation),
      ops = pre ++ op :: post → op.undoable = true →
      (∀ o ∈ post, o.undoable = false) →
      get_last_undoable_operation ops = some op) ∧
    (∀ ops : List Operation, (∀ o ∈ ops, o.undoable = false) →
      get_last_undoable_operation ops = none) := by
  constructor
  · rintro ops pre op post rfl hop hpost
    unfold get_last_undoable_operation
    rw [List.reverse_append, List.reverse_cons, List.append_assoc,
      List.find?_append]
    have hnone : (post.reverse.find? fun o => o.undoable) = none := by
      rw [List.find?_eq_none]
      intro o ho
      simp [hpost o (List.mem_reverse.mp ho)]
    rw [hnone]
    simp [List.find?_append, List.find?_cons, hop]
  · intro ops hops
    unfold get_last_undoable_operation
    rw [List.find?_eq_none]
    intro o ho
    simp [hops o (List.mem_reverse.mp ho)]

/-- Witness for C8: a history whose most recent entry is not undoable
yields the undoable entry before it; a history with no undoable entry
yields `None`. -/
theorem C8_last_undoable_witness :
    get_last_undoable_operation
      [⟨"t1", "create", "", true, some "delete_event"⟩,
       ⟨"t2", "update", "", true, some "restore_event"⟩,
       ⟨"t3", "delete", "", false, none⟩] =
      some ⟨"t2", "update", "", true, some "restore_event"⟩ ∧
    get_last_undoable_operation [⟨"t3", "delete", "", false, none⟩] = none :=
  ⟨C8_last_undoable.1 _ [⟨"t1", "create", "", true, some "delete_event"⟩]
      ⟨"t2", "update", "", true, some "restore_event"⟩
      [⟨"t3", "delete", "", false, none⟩] rfl rfl (by decide),
   C8_last_undoable.2 _ (by decide)⟩

/-! ## Event templates (`templates.py`) -/

/-- A JSON value of a stored template document. -/
inductive JVal
  | str (s : String)
  | arr (xs : List JVal)
  | num (n : Int)
  | obj (fields : List (String × JVal))
  | bool (b : Bool)
  | null

/-- One template document: the key/value pairs of its JSON object, in
order. -/
def Template := List (String × JVal)

/-- The pattern `render_template` actually searches for, for a variable
`name`: the f-string `f"{{{{{name}}}}}}}"` (templates.py lines 97 and
100) evaluates to two opening braces, the name, and THREE closing
braces — the two doubled pairs each side plus one stray literal `}` —
not the two-brace `{{name}}` form announced by the comment right above
it (line 94). -/
def placeholderPattern (name : String) : String :=
  "\x7b\x7b" ++ name ++ "\x7d\x7d\x7d"

/-- Python's `str.replace` on character lists: scan left to right,
replacing each non-overlapping occurrence of `p` and resuming after the
replacement.  `fuel` bounds the recursion and is exact whenever `p` is
non-empty (every step consumes at least one character), which every
pattern built by `placeholderPattern` is. -/
def replaceGo (p rep : List Char) : Nat → List Char → List Char
  | 0, s => s
  | _ + 1, [] => []
  | fuel + 1, a :: s =>
      if p.isPrefixOf (a :: s) then
        rep ++ replaceGo p rep fuel ((a :: s).drop p.length)
      else a :: replaceGo p rep fuel s

/-- Python's `s.replace(pat, rep)`. -/
def pyReplace (s pat rep : String) : String :=
  String.mk (replaceGo pat.toList rep.toList (s.toList.length + 1) s.toList)

/-- The substitution loop over one string value (templates.py lines
95–97): each supplied variable's pattern is replaced in turn. -/
def renderStr (subs : List (String × String)) (s : String) : String :=
  subs.foldl (fun acc kv => pyReplace acc (placeholderPattern kv.1) kv.2) s

/-- `render_template` (templates.py lines 85–105), over the loaded
template store (name → document; `get_template` reads
`TEMPLATES_DIR/name.json`).  `if not template:` is a truthiness test,
so both a missing and an empty document raise the not-found error.  A
string field goes through the substitution loop; a list field is
rebuilt by the double comprehension of lines 100–101 — one element per
(element, substitution) pair, each string element replaced under that
single substitution; any other field is passed through. -/
def render_template (store : List (String × Template)) (name : String)
    (subs : List (String × String)) : Except String Template :=
  match store.lookup name with
  | none => Except.error ("Template '" ++ name ++ "' not found")
  | some [] => Except.error ("Template '" ++ name ++ "' not found")
  | some template =>
      Except.ok (template.map fun kv =>
        match kv.2 with
        | JVal.str v => (kv.1, JVal.str (renderStr subs v))
        | JVal.arr xs =>
            (kv.1, JVal.arr (xs.flatMap fun v =>
              subs.map fun kv2 =>
                match v with
                | JVal.str sv =>
                    JVal.str (pyReplace sv (placeholderPattern kv2.1) kv2.2)
                | other => other))
        | other => (kv.1, other))

/-- A concrete stored template, as `create_template` would write it:
`(title = "Standup {{team}}", location = "Room {{team}}}",
duration_minutes = 30, attendees = ["{{team}}@corp.com",
"boss@corp.com"])`. -/
def demoStore : List (String × Template) :=
  [("standup",
    [("title", JVal.str "Standup \x7b\x7bteam\x7d\x7d"),
     ("location", JVal.str "Room \x7b\x7bteam\x7d\x7d\x7d"),
     ("duration_minutes", JVal.num 30),
     ("attendees", JVal.arr [JVal.str "\x7b\x7bteam\x7d\x7d@corp.com",
                             JVal.str "boss@corp.com"])])]

/-- C9: evaluation of `render_template` on the stored template above.
The claim says `{{team}}` placeholders are substituted and list fields
keep their length and order; instead (1) with the substitution
`team := "alpha"` the title's `{{team}}` survives untouched while the
three-brace `{{team}}}` in the location is what gets replaced, and the
list field survives only because there is exactly one substitution;
(2) with two substitutions every list element is emitted once per
substitution, doubling the list; (3) with no substitutions a list
field is emptied outright; (4) the not-found error of the claim does
hold for a missing name. -/
theorem C9_render_template_evaluation :
    render_template demoStore "standup" [("team", "alpha")] =
      Except.ok
        [("title", JVal.str "Standup \x7b\x7bteam\x7d\x7d"),
         ("location", JVal.str "Room alpha"),
         ("duration_minutes", JVal.num 30),
         ("attendees", JVal.arr [JVal.str "\x7b\x7bteam\x7d\x7d@corp.com",
                                 JVal.str "boss@corp.com"])] ∧
    render_template demoStore "standup" [("team", "alpha"), ("room", "R1")] =
      Except.ok
        [("title", JVal.str "Standup \x7b\x7bteam\x7d\x7d"),
         ("location", JVal.str "Room alpha"),
         ("duration_minutes", JVal.num 30),
         ("attendees", JVal.arr [JVal.str "\x7b\x7bteam\x7d\x7d@corp.com",
                                 JVal.str "\x7b\x7bteam\x7d\x7d@corp.com",
                                 JVal.str "boss@corp.com",
                                 JVal.str "boss@corp.com"])] ∧
    render_template demoStore "standup" [] =
      Except.ok
        [("title", JVal.str "Standup \x7b\x7bteam\x7d\x7d"),
         ("location", JVal.str "Room \x7b\x7bteam\x7d\x7d\x7d"),
         ("duration_minutes", JVal.num 30),
         ("attendees", JVal.arr [])] ∧
    render_template demoStore "nope" [("team", "alpha")] =
      Except.error "Template 'nope' not found" :=
  ⟨rfl, rfl, rfl, rfl⟩

/-! ## Shared account registry (`shared_auth.py`) -/

/-- The shared JSON config file: its string-valued entries (in
insertion order, as a JSON object keeps them) plus the known-accounts
list of the `"accounts"` key (`[]` when the key is absent). -/
structure SharedConfig where
  entries : List (String × String)
  accounts : List String
deriving Repr, DecidableEq

/-- `config[key] = value` on the string-valued entries: rebind the
first occurrence of `key` in place, append when absent. -/
def setKey : List (String × String) → String → String → List (String × String)
  | [], k, v => [(k, v)]
  | (k', v') :: rest, k, v =>
      if k' = k then (k, v) :: rest else (k', v') :: setKey rest k v

/-- `set_default_account` (shared_auth.py lines 96–118): with a service
name the service-specific key `"<service>_default_account"` is set —
and then the global `"default_account"` is overwritten unconditionally
as well (line 110 is not guarded by the `if service_name:`); finally
the account is appended to the known-accounts list when absent. -/
def set_default_account (config : SharedConfig) (account_name : String)
    (service_name : Option String) : SharedConfig :=
  let config :=
    match service_name with
    | some svc =>
        let entries := setKey config.entries (svc ++ "_default_account") account_name
        { config with entries := entries }
    | none => config
  let entries := setKey config.entries "default_account" account_name
  let config := { config with entries := entries }
  if account_name ∈ config.accounts then config
  else { config with accounts := config.accounts ++ [account_name] }

/-- The shared-config step of `get_default_account` (shared_auth.py
lines 86–93; the environment-variable and directory-profile lookups
that precede it are modelled as absent): the service-specific key when
a service is named and bound, else the global `default_account`. -/
def config_default_account (config : SharedConfig)
    (service_name : Option String) : Option String :=
  match service_name with
  | some svc =>
      match config.entries.lookup (svc ++ "_default_account") with
      | some v => some v
      | none => config.entries.lookup "default_account"
  | none => config.entries.lookup "default_account"

lemma lookup_setKey_self (l : List (String × String)) (k v : String) :
    (setKey l k v).lookup k = some v := by
  induction l with
  | nil => simp [setKey, List.lookup]
  | cons p rest ih =>
      obtain ⟨k', v'⟩ := p
      by_cases h : k' = k
      · simp [setKey, h, List.lookup]
      · have hbeq : (k == k') = false := beq_eq_false_iff_ne.mpr (Ne.symm h)
        simp [setKey, h, List.lookup, hbeq, ih]

lemma lookup_setKey_of_ne (l : List (String × String)) (k v k' : String)
    (h : k' ≠ k) : (setKey l k v).lookup k' = l.lookup k' := by
  induction l with
  | nil =>
      have hbeq : (k' == k) = false := beq_eq_false_iff_ne.mpr h
      simp [setKey, List.lookup, hbeq]
  | cons p rest ih =>
      obtain ⟨k0, v0⟩ := p
      by_cases h0 : k0 = k
      · subst h0
        have hbeq : (k' == k0) = false := beq_eq_false_iff_ne.mpr h
        simp [setKey, List.lookup, hbeq]
      · by_cases h1 : k' = k0
        · subst h1
          simp [setKey, h0, List.lookup]
        · have hbeq : (k' == k0) = false := beq_eq_false_iff_ne.mpr h1
          simp [setKey, h0, List.lookup, hbeq, ih]

lemma service_key_ne_default (svc : String) :
    svc ++ "_default_account" ≠ "default_account" := by
  intro h
  have hlen := congrArg String.length h
  rw [String.length_append] at hlen
  have h16 : ("_default_account" : String).length = 16 := rfl
  have h15 : ("default_account" : String).length = 15 := rfl
  omega

/-- C10: `set_default_account` with a service name sets the
service-specific key `"<service>_default_account"` — and unconditionally
overwrites the global `"default_account"` too, so a lookup for any other
service whose own key is unbound (the sibling Gmail tool's, say), and
the plain global lookup, now both yield this account. -/
theorem C10_service_default_overwrites_global
    (config : SharedConfig) (account svc : String) :
    (set_default_account config account (some svc)).entries.lookup
        (svc ++ "_default_account") = some account ∧
    (set_default_account config account (some svc)).entries.lookup
        "default_account" = some account ∧
    (∀ other : String,
      (set_default_account config account (some svc)).entries.lookup
          (other ++ "_default_account") = none →
      config_default_account (set_default_account config account (some svc))
          (some other) = some account) ∧
    config_default_account (set_default_account config account (some svc))
        none = some account := by
  have hentries : (set_default_account config account (some svc)).entries =
      setKey (setKey config.entries (svc ++ "_default_account") account)
        "default_account" account := by
    simp only [set_default_account]
    split <;> rfl
  have hsvc : (set_default_account config account (some svc)).entries.lookup
      (svc ++ "_default_account") = some account := by
    rw [hentries, lookup_setKey_of_ne _ _ _ _ (service_key_ne_default svc)]
    exact lookup_setKey_self _ _ _
  have hdef : (set_default_account config account (some svc)).entries.lookup
      "default_account" = some account := by
    rw [hentries]
    exact lookup_setKey_self _ _ _
  refine ⟨hsvc, hdef, fun other hnone => ?_, ?_⟩
  · simp only [config_default_account]
    rw [hnone]
    simpa using hdef
  · simpa [config_default_account] using hdef

/-- Witness for C10: on a config whose global default was another
account, setting the calendar default rebinds both the calendar key and
the global key, and a Gmail-side lookup (no Gmail-specific key bound)
now sees the new account. -/
theorem C10_service_default_overwrites_global_witness :
    (set_default_account ⟨[("default_account", "old@example.com")],
        ["old@example.com"]⟩ "new@example.com" (some "calendar")).entries.lookup
      "calendar_default_account" = some "new@example.com" ∧
    (set_default_account ⟨[("default_account", "old@example.com")],
        ["old@example.com"]⟩ "new@example.com" (some "calendar")).entries.lookup
      "default_account" = some "new@example.com" ∧
    config_default_account (set_default_account
        ⟨[("default_account", "old@example.com")], ["old@example.com"]⟩
        "new@example.com" (some "calendar")) (some "gmail") =
      some "new@example.com" :=
  have h := C10_service_default_overwrites_global
    ⟨[("default_account", "old@example.com")], ["old@example.com"]⟩
    "new@example.com" "calendar"
  ⟨h.1, h.2.1, h.2.2.1 "gmail" (by decide)⟩

end GCalCli
